import Mathlib

/-!
Verification of the workflower song-generation pipeline.

The definitions below are a shallow embedding of the Go sources:
`workflow/workflow.go` (the engine), `handlers/handlers.go` (the HTTP
review handler), `storage/storage.go` (the data model) and the suno
client (`lib/suno`).  Go strings are modelled as Lean `String`s viewed
as their character lists (the repository only manipulates them
byte/rune-agnostically for the properties the claims concern), Go
`float64` values produced from decimal literals are modelled exactly as
rationals (`Rat`; no rounding is observable in the claims), external
HTTP calls (LLM chat, suno submit/poll, notifier) are oracle inputs,
and fallible operations return `Option`/`Except`.
-/

set_option maxRecDepth 8192

namespace Workflower

instance decEqExcept {ε α : Type _} [DecidableEq ε] [DecidableEq α] :
    DecidableEq (Except ε α) := fun x y =>
  match x, y with
  | .error a, .error b =>
    if h : a = b then isTrue (by rw [h]) else isFalse (fun hh => h (Except.error.inj hh))
  | .error _, .ok _ => isFalse (fun hh => Except.noConfusion hh)
  | .ok _, .error _ => isFalse (fun hh => Except.noConfusion hh)
  | .ok a, .ok b =>
    if h : a = b then isTrue (by rw [h]) else isFalse (fun hh => h (Except.ok.inj hh))

/-! ### Characters and JSON scanning helpers

`lbrace`/`rbrace` name the two brace characters (written via their code
points throughout this file). -/

def lbrace : Char := Char.ofNat 123

def rbrace : Char := Char.ofNat 125

/-- Whitespace accepted between JSON tokens by Go `encoding/json`. -/
def isJsonWs (c : Char) : Bool := c = ' ' || c = '\t' || c = '\n' || c = '\r'

def skipWs : List Char → List Char
  | [] => []
  | c :: rest => if isJsonWs c then skipWs rest else c :: rest

/-- Numeric value of a decimal digit string (most significant first). -/
def digitsVal (ds : List Char) : Nat := ds.foldl (fun n c => n * 10 + (c.toNat - 48)) 0

/-- Split the longest leading run of decimal digits. -/
def takeDigits : List Char → List Char × List Char
  | [] => ([], [])
  | c :: rest =>
    if c.isDigit then
      let p := takeDigits rest
      (c :: p.1, p.2)
    else ([], c :: rest)

/-- The exact rational `m * 10 ^ scale`. -/
def ratOfScaled (m : Int) (scale : Int) : Rat :=
  if 0 ≤ scale then mkRat (m * (10 : Int) ^ scale.toNat) 1
  else mkRat m ((10 : Nat) ^ (-scale).toNat)

/-- Exponent part of a JSON number, after the `e`/`E` marker. -/
def readExpPart (cs : List Char) : Option (Int × List Char) :=
  let signSplit : Bool × List Char :=
    match cs with
    | c :: rest => if c = '+' then (false, rest) else if c = '-' then (true, rest) else (false, cs)
    | [] => (false, [])
  match takeDigits signSplit.2 with
  | ([], _) => none
  | (ds, r) => some (if signSplit.1 then -(digitsVal ds : Int) else (digitsVal ds : Int), r)

/-- A JSON number per RFC 8259 as accepted by Go `encoding/json`:
`-? (0 | [1-9][0-9]*) (. [0-9]+)? ([eE][+-]?[0-9]+)?`. -/
def readJsonNumber (cs : List Char) : Option (Rat × List Char) :=
  let signSplit : Bool × List Char :=
    match cs with
    | c :: rest => if c = '-' then (true, rest) else (false, cs)
    | [] => (false, [])
  match takeDigits signSplit.2 with
  | ([], _) => none
  | (intDs, afterInt) =>
    if 1 < intDs.length ∧ intDs.head? = some '0' then none
    else
      let fracSplit : Option (List Char × List Char) :=
        match afterInt with
        | c :: rest =>
          if c = '.' then
            match takeDigits rest with
            | ([], _) => none
            | (ds, r) => some (ds, r)
          else some ([], afterInt)
        | [] => some ([], [])
      match fracSplit with
      | none => none
      | some (fracDs, afterFrac) =>
        let expSplit : Option (Int × List Char) :=
          match afterFrac with
          | c :: rest => if c = 'e' ∨ c = 'E' then readExpPart rest else some (0, afterFrac)
          | [] => some (0, [])
        match expSplit with
        | none => none
        | some (e, afterExp) =>
          let mag : Int := (digitsVal (intDs ++ fracDs) : Int)
          let mantissa : Int := if signSplit.1 then -mag else mag
          some (ratOfScaled mantissa (e - (fracDs.length : Int)), afterExp)

def hexVal (c : Char) : Option Nat :=
  if c.isDigit then some (c.toNat - 48)
  else if 'a' ≤ c ∧ c ≤ 'f' then some (c.toNat - 87)
  else if 'A' ≤ c ∧ c ≤ 'F' then some (c.toNat - 55)
  else none

/-- Body of a JSON string literal, after the opening quote.  `acc` is
the reversed content read so far.  Escapes follow Go `encoding/json`
(surrogate-pair recombination is elided; no claim exercises it). -/
def readStringBody : Nat → List Char → List Char → Option (String × List Char)
  | 0, _, _ => none
  | fuel + 1, acc, cs =>
    match cs with
    | [] => none
    | c :: rest =>
      if c = '"' then some (String.mk acc.reverse, rest)
      else if c = '\\' then
        match rest with
        | [] => none
        | e :: rest2 =>
          if e = '"' then readStringBody fuel ('"' :: acc) rest2
          else if e = '\\' then readStringBody fuel ('\\' :: acc) rest2
          else if e = '/' then readStringBody fuel ('/' :: acc) rest2
          else if e = 'n' then readStringBody fuel ('\n' :: acc) rest2
          else if e = 't' then readStringBody fuel ('\t' :: acc) rest2
          else if e = 'r' then readStringBody fuel ('\r' :: acc) rest2
          else if e = 'b' then readStringBody fuel (Char.ofNat 8 :: acc) rest2
          else if e = 'f' then readStringBody fuel (Char.ofNat 12 :: acc) rest2
          else if e = 'u' then
            match rest2 with
            | h1 :: h2 :: h3 :: h4 :: rest3 =>
              match hexVal h1, hexVal h2, hexVal h3, hexVal h4 with
              | some a, some b, some c2, some d =>
                readStringBody fuel (Char.ofNat (((a * 16 + b) * 16 + c2) * 16 + d) :: acc) rest3
              | _, _, _, _ => none
            | _ => none
          else none
      else readStringBody fuel (c :: acc) rest

/-! ### JSON values -/

inductive Json where
  | null
  | bool (b : Bool)
  | num (q : Rat)
  | str (s : String)
  | arr (elems : List Json)
  | obj (fields : List (String × Json))
deriving Repr

mutual

def readJsonValue : Nat → List Char → Option (Json × List Char)
  | 0, _ => none
  | fuel + 1, cs =>
    match skipWs cs with
    | [] => none
    | c :: rest =>
      if c = '"' then
        match readStringBody (rest.length + 1) [] rest with
        | some (s, r) => some (.str s, r)
        | none => none
      else if c = lbrace then
        match readJsonMembers fuel rest true with
        | some (ms, r) => some (.obj ms, r)
        | none => none
      else if c = '[' then
        match readJsonElems fuel rest true with
        | some (vs, r) => some (.arr vs, r)
        | none => none
      else if c = 't' then
        match rest with
        | 'r' :: 'u' :: 'e' :: r => some (.bool true, r)
        | _ => none
      else if c = 'f' then
        match rest with
        | 'a' :: 'l' :: 's' :: 'e' :: r => some (.bool false, r)
        | _ => none
      else if c = 'n' then
        match rest with
        | 'u' :: 'l' :: 'l' :: r => some (.null, r)
        | _ => none
      else
        match readJsonNumber (c :: rest) with
        | some (q, r) => some (.num q, r)
        | none => none

def readJsonMembers : Nat → List Char → Bool → Option (List (String × Json) × List Char)
  | 0, _, _ => none
  | fuel + 1, cs, first =>
    match skipWs cs with
    | [] => none
    | c :: rest =>
      if first ∧ c = rbrace then some ([], rest)
      else if c = '"' then
        match readStringBody (rest.length + 1) [] rest with
        | none => none
        | some (key, r1) =>
          match skipWs r1 with
          | ':' :: r2 =>
            match readJsonValue fuel r2 with
            | none => none
            | some (v, r3) =>
              match skipWs r3 with
              | ',' :: r4 =>
                match readJsonMembers fuel r4 false with
                | some (ms, r5) => some ((key, v) :: ms, r5)
                | none => none
              | c2 :: r4 => if c2 = rbrace then some ([(key, v)], r4) else none
              | [] => none
          | _ => none
      else none

def readJsonElems : Nat → List Char → Bool → Option (List Json × List Char)
  | 0, _, _ => none
  | fuel + 1, cs, first =>
    match skipWs cs with
    | [] => none
    | c :: rest =>
      if first ∧ c = ']' then some ([], rest)
      else
        match readJsonValue fuel (c :: rest) with
        | none => none
        | some (v, r1) =>
          match skipWs r1 with
          | ',' :: r2 =>
            match readJsonElems fuel r2 false with
            | some (vs, r3) => some (v :: vs, r3)
            | none => none
          | ']' :: r2 => some ([v], r2)
          | _ => none

end

/-- The syntactic phase of `json.Unmarshal`: the input must be exactly one
JSON value, possibly surrounded by whitespace.  The fuel `2·n + 4`
dominates the recursion depth (each reader call consumes at least one
character per two fuel units). -/
def parseJson (cs : List Char) : Option Json :=
  match readJsonValue (2 * cs.length + 4) cs with
  | some (v, rest) => if (skipWs rest).isEmpty then some v else none
  | none => none

/-! ### Data model (`storage/storage.go`)

Wall-clock timestamps (`CreatedAt`/`UpdatedAt`) are elided: no claim
observes them. -/

/-- Model of `storage.SunoProperties`. -/
structure SunoProperties where
  style : String
  vocalType : String
  lyricsMode : String
  weirdness : Rat
  styleInfluence : String
deriving DecidableEq, Repr

/-- Model of `storage.PersonaInspo`. -/
structure PersonaInspo where
  persona : String
  inspo : String
deriving DecidableEq, Repr

/-- Model of `storage.WorkflowState`.  Go nil-able pointers become `Option`. -/
structure WorkflowState where
  id : String
  status : String
  taskDescription : String
  isPremium : Bool
  audioFilePath : String
  audioFileName : String
  lyrics : String
  lyricsWithBrackets : String
  sunoProperties : Option SunoProperties
  personaInspo : Option PersonaInspo
  editedLyrics : String
  editedProperties : Option SunoProperties
  sunoJobID : String
  sunoResult : String
  errorMsg : String
deriving DecidableEq, Repr

/-- The zero value of `storage.SunoProperties`. -/
def emptySunoProperties : SunoProperties :=
  { style := "", vocalType := "", lyricsMode := "", weirdness := 0, styleInfluence := "" }

/-- The zero value of `storage.PersonaInspo`. -/
def emptyPersonaInspo : PersonaInspo := { persona := "", inspo := "" }

/-! ### Struct decoding (Go `encoding/json` field semantics)

Fields are matched by their json tag, case-insensitively as a fallback
(Go prefers the exact match); unknown fields are ignored; a `null`
value leaves the field untouched; a value of the wrong kind is an
error. -/

def lowerChar (c : Char) : Char :=
  if 'A' ≤ c ∧ c ≤ 'Z' then Char.ofNat (c.toNat + 32) else c

def keyMatches (key tag : String) : Bool :=
  key = tag || String.mk (key.data.map lowerChar) = tag

def setSunoField (p : SunoProperties) (key : String) (v : Json) : Option SunoProperties :=
  if keyMatches key ("style") then
    match v with
    | .str s => some { p with style := s }
    | .null => some p
    | _ => none
  else if keyMatches key ("vocal_type") then
    match v with
    | .str s => some { p with vocalType := s }
    | .null => some p
    | _ => none
  else if keyMatches key ("lyrics_mode") then
    match v with
    | .str s => some { p with lyricsMode := s }
    | .null => some p
    | _ => none
  else if keyMatches key ("weirdness") then
    match v with
    | .num q => some { p with weirdness := q }
    | .null => some p
    | _ => none
  else if keyMatches key ("style_influence") then
    match v with
    | .str s => some { p with styleInfluence := s }
    | .null => some p
    | _ => none
  else some p

def decodeSunoProperties : Json → Option SunoProperties
  | .null => some emptySunoProperties
  | .obj fields => fields.foldlM (fun p kv => setSunoField p kv.1 kv.2) emptySunoProperties
  | _ => none

/-- Model of `json.Unmarshal(data, &props)` for `storage.SunoProperties`. -/
def unmarshalSunoProperties (cs : List Char) : Option SunoProperties :=
  (parseJson cs).bind decodeSunoProperties

def setPersonaField (p : PersonaInspo) (key : String) (v : Json) : Option PersonaInspo :=
  if keyMatches key ("persona") then
    match v with
    | .str s => some { p with persona := s }
    | .null => some p
    | _ => none
  else if keyMatches key ("inspo") then
    match v with
    | .str s => some { p with inspo := s }
    | .null => some p
    | _ => none
  else some p

def decodePersonaInspo : Json → Option PersonaInspo
  | .null => some emptyPersonaInspo
  | .obj fields => fields.foldlM (fun p kv => setPersonaField p kv.1 kv.2) emptyPersonaInspo
  | _ => none

/-- Model of `json.Unmarshal(data, &pi)` for `storage.PersonaInspo`. -/
def unmarshalPersonaInspo (cs : List Char) : Option PersonaInspo :=
  (parseJson cs).bind decodePersonaInspo

/-! ### Balanced-brace extraction (`workflow.go`, `extractSunoProperties`
and `extractPersonaInspo`)

The Go loop walks the response once, remembering the index of the first
opening brace and a running brace count (which may go negative), and
stops at the closing brace that returns the count to zero. -/

def extractScan : List Char → Nat → Option Nat → Int → Option (Nat × Nat)
  | [], _, _, _ => none
  | c :: rest, i, start, depth =>
    if c = lbrace then
      extractScan rest (i + 1) (some (start.getD i)) (depth + 1)
    else if c = rbrace then
      match start with
      | some s => if depth - 1 = 0 then some (s, i + 1) else extractScan rest (i + 1) start (depth - 1)
      | none => extractScan rest (i + 1) none (depth - 1)
    else extractScan rest (i + 1) start depth

/-- The `[start, end)` span found by the brace-counting loop. -/
def extractJsonSpan (cs : List Char) : Option (Nat × Nat) := extractScan cs 0 none 0

/-- Model of `workflow.extractSunoProperties`: unmarshal the spanned
substring; `none` is the Go error reading "no valid JSON found in
response". -/
def extractSunoProperties (cs : List Char) : Option SunoProperties :=
  match extractJsonSpan cs with
  | some (s, e) => unmarshalSunoProperties ((cs.drop s).take (e - s))
  | none => none

/-- Model of `workflow.extractPersonaInspo`. -/
def extractPersonaInspo (cs : List Char) : Option PersonaInspo :=
  match extractJsonSpan cs with
  | some (s, e) => unmarshalPersonaInspo ((cs.drop s).take (e - s))
  | none => none

/-! ### Suno client (`lib/suno/client.go`) -/

/-- Model of `suno.CustomGenerateRequest`: the full wire shape of the MGS
submission (json tags `prompt`, `tags`, `negative_tags`, `title`,
`make_instrumental`, `model`, `wait_audio`). -/
structure CustomGenerateRequest where
  prompt : String
  tags : String
  negativeTags : String
  title : String
  makeInstrumental : Bool
  model : String
  waitAudio : Bool
deriving DecidableEq, Repr

/-- Model of `suno.AudioInfo` (the `duration` float is elided; no claim observes
it). -/
structure AudioInfo where
  id : String
  title : String
  imageURL : String
  lyric : String
  audioURL : String
  videoURL : String
  createdAt : String
  modelName : String
  status : String
  gptDescriptionPrompt : String
  prompt : String
  type : String
  tags : String
deriving DecidableEq, Repr

/-- The distinct error outcomes of `suno.Client.WaitForCompletion`. -/
inductive WaitError where
  | ctxCancelled
  | getFailed (msg : String)
  | noAudio (id : String)
  | maxRetriesExceeded
deriving DecidableEq, Repr

/-- The Go error text attached to each `WaitError` outcome. -/
def WaitError.message : WaitError → String
  | .ctxCancelled => "context canceled"
  | .getFailed e => "failed to get audio info: " ++ e
  | .noAudio id => "no audio found with ID: " ++ id
  | .maxRetriesExceeded => "max retries exceeded waiting for audio completion"

/-- The loop body of `suno.Client.WaitForCompletion`.  `cancelled i`
is whether the context is observed cancelled at the start of iteration
`i`; `fetch i` is the outcome of the `Get` call of iteration `i` (an
oracle for the remote job state).  The second component counts the
`Get` calls performed.  The `time.Sleep(pollInterval)` between
iterations is elided (real time is outside the embedding). -/
def waitForCompletionLoop (cancelled : Nat → Bool) (fetch : Nat → Except String (List AudioInfo))
    (id : String) : Nat → Nat → Except WaitError AudioInfo × Nat
  | _, 0 => (.error .maxRetriesExceeded, 0)
  | i, retries + 1 =>
    if cancelled i then (.error .ctxCancelled, 0)
    else
      match fetch i with
      | .error e => (.error (.getFailed e), 1)
      | .ok [] => (.error (.noAudio id), 1)
      | .ok (audio :: _) =>
        if audio.status = "streaming" ∨ audio.status = "complete" then (.ok audio, 1)
        else
          let r := waitForCompletionLoop cancelled fetch id (i + 1) retries
          (r.1, r.2 + 1)

/-- Model of `suno.Client.WaitForCompletion(ctx, id, pollInterval, maxRetries)`.
`pollIntervalSeconds` only names the sleep length; it does not affect
the result. -/
def waitForCompletion (cancelled : Nat → Bool) (fetch : Nat → Except String (List AudioInfo))
    (id : String) (pollIntervalSeconds : Nat) (maxRetries : Nat) :
    Except WaitError AudioInfo × Nat :=
  waitForCompletionLoop cancelled fetch id 0 maxRetries

/-! ### Workflow engine (`workflow/workflow.go`) -/

/-- Model of `workflow.truncateString`. -/
def truncateString (s : String) (maxLen : Nat) : String :=
  if s.length ≤ maxLen then s else String.mk (s.data.take maxLen) ++ "..."

/-- Model of `workflow.Engine.handleError`: mark the record failed, with the
step name and the upstream message. -/
def handleError (step : String) (errMsg : String) (s : WorkflowState) : WorkflowState :=
  { s with status := "failed", errorMsg := step ++ " failed: " ++ errMsg }

/-- The fresh record built by `workflow.Engine.StartWorkflow`. -/
def newWorkflowState (id task : String) (isPremium : Bool) (audioPath audioName : String) :
    WorkflowState :=
  { id := id, status := "processing", taskDescription := task, isPremium := isPremium,
    audioFilePath := audioPath, audioFileName := audioName,
    lyrics := "", lyricsWithBrackets := "", sunoProperties := none, personaInspo := none,
    editedLyrics := "", editedProperties := none, sunoJobID := "", sunoResult := "",
    errorMsg := "" }

/-- Model of `workflow.Engine.determineSunoProperties`: the LLM chat outcome is
an oracle input; on success, strict unmarshal first, then the
balanced-brace extraction. -/
def determineSunoProperties (chatResp : Except String String) : Except String SunoProperties :=
  match chatResp with
  | .error e => .error e
  | .ok response =>
    match unmarshalSunoProperties response.data with
    | some props => .ok props
    | none =>
      match extractSunoProperties response.data with
      | some props => .ok props
      | none => .error ("failed to parse suno properties: no valid JSON found in response")

/-- Model of `workflow.Engine.generatePersonaInspo`, same lenient strategy. -/
def generatePersonaInspo (chatResp : Except String String) : Except String PersonaInspo :=
  match chatResp with
  | .error e => .error e
  | .ok response =>
    match unmarshalPersonaInspo response.data with
    | some pi => .ok pi
    | none =>
      match extractPersonaInspo response.data with
      | some pi => .ok pi
      | none => .error ("failed to parse persona/inspo: no valid JSON found in response")

/-- The four LLM chat outcomes consumed by the pre-review stage, as
oracle inputs (steps 1-4 of `runWorkflowSteps`). -/
structure LLMOutcomes where
  lyricsResp : Except String String
  propsResp : Except String String
  bracketsResp : Except String String
  personaResp : Except String String

/-- Step 5 of `workflow.Engine.runWorkflowSteps`: copy the generated
artifacts into the editable fields and enter review. -/
def enterReview (s : WorkflowState) : WorkflowState :=
  { s with status := "awaiting_review", editedLyrics := s.lyricsWithBrackets,
           editedProperties := s.sunoProperties }

/-- Model of `workflow.Engine.runWorkflowSteps`: the strict pre-review sequence.
Each step aborts the pipeline through `handleError` on failure.  The
state returned is the record at the end of the stage (the
review-ready notification is sent after this point and does not change
the record). -/
def runWorkflowSteps (o : LLMOutcomes) (state0 : WorkflowState) : WorkflowState :=
  match o.lyricsResp with
  | .error e => handleError ("lyrics generation") e state0
  | .ok lyr =>
    let s1 := { state0 with lyrics := lyr }
    match determineSunoProperties o.propsResp with
    | .error e => handleError ("suno properties") e s1
    | .ok props =>
      let s2 := { s1 with sunoProperties := some props }
      match o.bracketsResp with
      | .error e => handleError ("bracket instructions") e s2
      | .ok lwb =>
        let s3 := { s2 with lyricsWithBrackets := lwb }
        if s3.isPremium then
          match generatePersonaInspo o.personaResp with
          | .error e => handleError ("persona/inspo") e s3
          | .ok pi => enterReview { s3 with personaInspo := some pi }
        else enterReview s3

/-- The property record used by `submitToSuno`: the edited properties,
falling back to the generated ones when the edit is absent (Go `nil`).
When both are absent the Go code dereferences a nil pointer, modelled
as `none`. -/
def effectiveProps (s : WorkflowState) : Option SunoProperties :=
  match s.editedProperties with
  | some props => some props
  | none => s.sunoProperties

/-- The MGS request constructed by `workflow.Engine.submitToSuno`
(lines 186-213): prompt from the edited lyrics with fallback, tags
from style and vocal type, title from the truncated brief; the
remaining wire fields are left at their zero values. -/
def buildSunoRequest (s : WorkflowState) : Option CustomGenerateRequest :=
  (effectiveProps s).map fun props =>
    let lyrics := if s.editedLyrics = "" then s.lyricsWithBrackets else s.editedLyrics
    let title := truncateString s.taskDescription 50
    let tags := props.style ++ (if props.vocalType ≠ "" then ", " ++ props.vocalType else "")
    { prompt := lyrics, tags := tags, negativeTags := "", title := title,
      makeInstrumental := false, model := "", waitAudio := false }

/-- Poll interval (seconds) hard-coded in `pollSunoCompletion`. -/
def sunoPollIntervalSeconds : Nat := 5

/-- Maximum retries hard-coded in `pollSunoCompletion`. -/
def sunoPollMaxRetries : Nat := 60

/-- The completion notification text of `pollSunoCompletion`. -/
def completionMessage (audio : AudioInfo) : String :=
  "✅ Song generation completed!\n\n🎵 Title: " ++ audio.title ++ "\n🔗 Audio: " ++
    audio.audioURL ++ "\n📹 Video: " ++ audio.videoURL

/-- Model of `workflow.Engine.pollSunoCompletion`: wait for the job, then either
fail the record or complete it, recording the reported status.  The
second component lists the notifier messages sent. -/
def pollSunoCompletion (cancelled : Nat → Bool) (fetch : Nat → Except String (List AudioInfo))
    (s : WorkflowState) (audioID : String) : WorkflowState × List String :=
  match (waitForCompletion cancelled fetch audioID sunoPollIntervalSeconds sunoPollMaxRetries).1 with
  | .error e => (handleError ("suno completion") e.message s, [])
  | .ok audio =>
    ({ s with sunoResult := audio.status, status := "completed" },
     [completionMessage audio])

/-- Model of `workflow.Engine.submitToSuno` followed by the polling task it
spawns (a single record has at most one active task, so the spawn is
linearised).  `submitRes` is the oracle outcome of the
`CustomGenerate` HTTP call; `none` models the nil-pointer panic when
no properties exist.  The list collects notifier messages. -/
def submitToSuno (submitRes : Except String (List AudioInfo)) (cancelled : Nat → Bool)
    (fetch : Nat → Except String (List AudioInfo)) (s : WorkflowState) :
    Option (WorkflowState × List String) :=
  match buildSunoRequest s with
  | none => none
  | some _req =>
    match submitRes with
    | .error e => some (handleError ("suno submission") e s, [])
    | .ok [] => some (handleError ("suno submission") ("no results returned from Suno") s, [])
    | .ok (first :: _) =>
      let s1 := { s with sunoJobID := first.id, status := "generating" }
      some (pollSunoCompletion cancelled fetch s1 first.id)

/-! ### HTTP review handler (`handlers/handlers.go`) -/

/-- Model of `strconv.ParseFloat` with the error discarded, as in
`SubmitReview` (`weirdness, _ := strconv.ParseFloat(...)`): a finite
decimal literal (optional sign, digits, fraction, exponent) parses
exactly; anything else yields `0`. -/
def goParseFloat (s : String) : Rat :=
  let cs := s.data
  let signSplit : Bool × List Char :=
    match cs with
    | c :: rest => if c = '+' then (false, rest) else if c = '-' then (true, rest) else (false, cs)
    | [] => (false, [])
  let intSplit := takeDigits signSplit.2
  let fracSplit : Option (List Char × List Char) :=
    match intSplit.2 with
    | c :: rest => if c = '.' then some (takeDigits rest) else some ([], intSplit.2)
    | [] => some ([], [])
  match fracSplit with
  | none => 0
  | some (fracDs, afterFrac) =>
    if intSplit.1.isEmpty ∧ fracDs.isEmpty then 0
    else
      let expSplit : Option (Int × List Char) :=
        match afterFrac with
        | c :: rest => if c = 'e' ∨ c = 'E' then readExpPart rest else some (0, afterFrac)
        | [] => some (0, [])
      match expSplit with
      | none => 0
      | some (e, afterExp) =>
        if afterExp.isEmpty then
          let mag : Int := (digitsVal (intSplit.1 ++ fracDs) : Int)
          ratOfScaled (if signSplit.1 then -mag else mag) (e - (fracDs.length : Int))
        else 0

/-- Model of `workflow.Engine.RejectWorkflow`. -/
def rejectWorkflow (s : WorkflowState) : WorkflowState := { s with status := "rejected" }

/-- The synchronous outcome of `handlers.SubmitReview`: the HTTP status
written and the record as left in the store (`none` when the id was
unknown). -/
structure SubmitOutcome where
  httpStatus : Nat
  record : Option WorkflowState
deriving DecidableEq, Repr

/-- Model of `handlers.SubmitReview` for `POST /workflow/:id/submit`: `lookup`
is the result of the store lookup, `form` maps form field names to
posted values (the gin `PostForm`, `""` when absent).  The approve branch
rebuilds the edited fields from the form, then `ApproveWorkflow` marks
the record approved (the asynchronous `submitToSuno` it spawns is
modelled separately). -/
def submitReview (lookup : Option WorkflowState) (form : String → String) : SubmitOutcome :=
  match lookup with
  | none => { httpStatus := 404, record := none }
  | some wf =>
    if wf.status ≠ "awaiting_review" then { httpStatus := 400, record := some wf }
    else if form ("action") = "reject" then
      { httpStatus := 302, record := some (rejectWorkflow wf) }
    else
      let wf1 := { wf with
        editedLyrics := form ("edited_lyrics"),
        editedProperties := some
          { style := form ("style"), vocalType := form ("vocal_type"), lyricsMode := "",
            weirdness := goParseFloat (form ("weirdness")),
            styleInfluence := form ("style_influence") } }
      let wf2 :=
        if wf1.isPremium then
          if form ("persona") ≠ "" ∨ form ("inspo") ≠ "" then
            { wf1 with personaInspo := some { persona := form ("persona"), inspo := form ("inspo") } }
          else wf1
        else wf1
      { httpStatus := 302, record := some { wf2 with status := "approved" } }

/-! ### A helper predicate for the C6 analysis -/

/-- Meaning of `blockScan rest depth`: walking `rest` with a running brace count
starting at `depth ≥ 1`, the count reaches `0` exactly at the last
character.  `isBalancedBlock` then says a text is one balanced brace
block: it starts with `{` and its matching `}` is its final
character. -/
def blockScan : List Char → Int → Bool
  | [], _ => false
  | c :: rest, depth =>
    let depth' := if c = lbrace then depth + 1 else if c = rbrace then depth - 1 else depth
    if depth' = 0 then rest.isEmpty else blockScan rest depth'

def isBalancedBlock (cs : List Char) : Bool :=
  match cs with
  | c :: rest => c = lbrace && blockScan rest 1
  | [] => false

/-! ### Concrete records and oracles used in the concrete theorems -/

/-- A 73-character brief. -/
def brief73 : String :=
  "0123456789012345678901234567890123456789012345678901234567890123456789abc"

/-- A review form that only carries `action=approve`. -/
def approveOnlyForm : String → String := fun k => if k = "action" then "approve" else ""

/-- A record already past review (status `generating`). -/
def generatingState : WorkflowState :=
  { newWorkflowState "wf-2" "a rainy-evening lofi track" false "" "" with status := "generating" }

/-- Properties as generated by the LLM, with a non-empty lyrics mode. -/
def genProps : SunoProperties :=
  { style := "lofi hip hop", vocalType := "female alto", lyricsMode := "custom",
    weirdness := mkRat 3 10, styleInfluence := "nujabes" }

/-- A record sitting at the review gate. -/
def awaitingState : WorkflowState :=
  { newWorkflowState "wf-3" "a rainy-evening lofi track" false "" "" with
    status := "awaiting_review", lyrics := "la la la",
    lyricsWithBrackets := "[Verse] la la la",
    sunoProperties := some genProps, editedLyrics := "[Verse] la la la",
    editedProperties := some genProps }

/-- A filled review form, including a `lyrics_mode` value that the
handler never reads. -/
def fullReviewForm : String → String := fun k =>
  if k = "action" then "approve"
  else if k = "edited_lyrics" then "[Verse] la la la"
  else if k = "style" then "lofi hip hop"
  else if k = "vocal_type" then "female alto"
  else if k = "lyrics_mode" then "custom"
  else if k = "weirdness" then "0.5"
  else if k = "style_influence" then "nujabes"
  else ""

/-- An approved premium record carrying persona/inspo and an uploaded
audio file. -/
def premiumBase : WorkflowState :=
  { newWorkflowState "wf-4" brief73 true ("uploads/2025-01-01/a_ref.mp3") ("ref.mp3") with
    status := "approved", lyrics := "la", lyricsWithBrackets := "[Verse] la",
    sunoProperties := some genProps,
    personaInspo := some { persona := "Persona A", inspo := "Inspo A" },
    editedLyrics := "[Verse] la", editedProperties := some genProps }

/-- Same record with different persona/inspo and audio reference. -/
def premiumAlt : WorkflowState :=
  { premiumBase with
    personaInspo := some { persona := "Persona B", inspo := "Inspo B" },
    audioFilePath := "uploads/2025-01-01/b_other.wav", audioFileName := "other.wav" }

/-- LLM oracle for a run in which the bracket-instruction step returns
an empty string. -/
def emptyBracketsOracle : LLMOutcomes :=
  { lyricsResp := .ok "la la la", propsResp := .ok "\x7b\x7d",
    bracketsResp := .ok "", personaResp := .ok "" }

/-- LLM oracle for a fully successful non-premium run. -/
def happyOracle : LLMOutcomes :=
  { lyricsResp := .ok "la la la",
    propsResp := .ok "\x7b\"style\":\"lofi hip hop\",\"vocal_type\":\"female alto\"\x7d",
    bracketsResp := .ok "[Verse] la la la", personaResp := .ok "" }

def freshBasicState : WorkflowState :=
  newWorkflowState "wf-5" "a rainy-evening lofi track" false "" ""

/-- Preamble and JSON payload of spec scenario 3. -/
def scenario3Preamble : String := "Sure! Here is the JSON: "

def scenario3Object : String :=
  "\x7b\"style\":\"rock\",\"vocal_type\":\"male\",\"lyrics_mode\":\"custom\",\"weirdness\":0.5,\"style_influence\":\"queen\"\x7d"

/-- A well-formed JSON object whose single string value is a closing
brace. -/
def braceyObject : String := "\x7b\"style\":\"\x7d\"\x7d"

/-- A context that is never cancelled. -/
def noCancel : Nat → Bool := fun _ => false

/-- A `Get` oracle that is never reached. -/
def fetchUnused : Nat → Except String (List AudioInfo) := fun _ => .error ("unused")

def audioPending : AudioInfo :=
  { id := "job-9", title := "t", imageURL := "", lyric := "", audioURL := "",
    videoURL := "", createdAt := "", modelName := "", status := "queue",
    gptDescriptionPrompt := "", prompt := "", type := "", tags := "" }

def audioStreaming : AudioInfo :=
  { audioPending with
    status := "streaming", audioURL := "https://cdn/a.mp3",
    videoURL := "https://cdn/a.mp4" }

/-- A `Get` oracle whose job streams from the first poll. -/
def streamingFetch : Nat → Except String (List AudioInfo) := fun _ => .ok [audioStreaming]

/-- An approved record about to be submitted (and then polled). -/
def approvedState : WorkflowState := { awaitingState with status := "approved" }

/-- The record while the generation job is being polled. -/
def pollingState : WorkflowState :=
  { approvedState with status := "generating", sunoJobID := "job-9" }

/-! ## Theorems -/

theorem data_append (a b : String) : (a ++ b).data = a.data ++ b.data := by
  cases a
  cases b
  rfl

theorem truncateString_of_le {s : String} {n : Nat} (h : s.length ≤ n) :
    truncateString s n = s := by
  simp [truncateString, h]

theorem truncateString_data_of_lt {s : String} {n : Nat} (h : n < s.length) :
    (truncateString s n).data = s.data.take n ++ ('.' :: '.' :: '.' :: []) := by
  have hn : ¬s.length ≤ n := Nat.not_le.mpr h
  simp [truncateString, hn, data_append]

theorem truncateString_length_of_lt {s : String} {n : Nat} (h : n < s.length) :
    (truncateString s n).length = n + 3 := by
  show (truncateString s n).data.length = n + 3
  rw [truncateString_data_of_lt h, List.length_append, List.length_take]
  have hmin : min n s.data.length = n := Nat.min_eq_left (Nat.le_of_lt h)
  simp [hmin]
  omega

/-- C7: `truncate(task, 50)` appends `"..."` to the first 50 characters
iff the task is longer than 50 characters, and returns the task
unchanged otherwise; a 73-character task yields a 53-character title
ending in `"..."`. -/
theorem truncateString_boundary (s : String) :
    (s.length ≤ 50 → truncateString s 50 = s) ∧
    (50 < s.length →
      (truncateString s 50).data = s.data.take 50 ++ ('.' :: '.' :: '.' :: []) ∧
      (truncateString s 50).length = 53) ∧
    (s.length = 73 →
      (truncateString s 50).length = 53 ∧
      (truncateString s 50).data.drop 50 = ('.' :: '.' :: '.' :: [])) := by
  refine ⟨fun h => truncateString_of_le h, fun h => ⟨truncateString_data_of_lt h, truncateString_length_of_lt h⟩, fun h => ?_⟩
  have h50 : 50 < s.length := by omega
  refine ⟨truncateString_length_of_lt h50, ?_⟩
  rw [truncateString_data_of_lt h50]
  have hlen : (s.data.take 50).length = 50 := by
    rw [List.length_take]
    have : s.data.length = 73 := h
    omega
  calc (s.data.take 50 ++ ('.' :: '.' :: '.' :: [])).drop 50
      = (s.data.take 50 ++ ('.' :: '.' :: '.' :: [])).drop (s.data.take 50).length := by rw [hlen]
    _ = ('.' :: '.' :: '.' :: []) := List.drop_left _ _

/-- Witness for C7 at the 73-character brief. -/
theorem truncateString_boundary_witness :
    brief73.length = 73 ∧
    (truncateString brief73 50).length = 53 ∧
    (truncateString brief73 50).data.drop 50 = ('.' :: '.' :: '.' :: []) :=
  ⟨by decide, (truncateString_boundary brief73).2.2 (by decide)⟩

/-- C2: `POST /workflow/:id/submit` with `action=approve` on a record
whose status is not `awaiting_review` answers HTTP 400 and leaves the
record untouched (the handler validates the state before any
mutation). -/
theorem submitReview_wrong_state (wf : WorkflowState) (form : String → String)
    (hact : form ("action") = "approve") (h : wf.status ≠ "awaiting_review") :
    submitReview (some wf) form = { httpStatus := 400, record := some wf } := by
  simp [submitReview, h]

/-- Witness for C2: approve attempted on a record in `generating`. -/
theorem submitReview_wrong_state_witness :
    submitReview (some generatingState) approveOnlyForm =
      { httpStatus := 400, record := some generatingState } :=
  submitReview_wrong_state generatingState approveOnlyForm (by decide) (by decide)

/-- C10: an approve submission rebuilds `edited_properties` from the
form fields `style`, `vocal_type`, `weirdness` and `style_influence`
only; no `lyrics_mode` field is read, so the approved record's
`edited_properties.lyrics_mode` is the empty string whatever the form
or the generated properties held. -/
theorem submitReview_approve_rebuild (wf : WorkflowState) (form : String → String)
    (h : wf.status = "awaiting_review") (ha : form ("action") ≠ "reject") :
    ∃ wf', submitReview (some wf) form = { httpStatus := 302, record := some wf' } ∧
      wf'.editedProperties = some
        { style := form ("style"), vocalType := form ("vocal_type"), lyricsMode := "",
          weirdness := goParseFloat (form ("weirdness")),
          styleInfluence := form ("style_influence") } ∧
      wf'.editedProperties.map SunoProperties.lyricsMode = some "" ∧
      wf'.status = "approved" := by
  have h1 : ¬(wf.status ≠ "awaiting_review") := fun hn => hn h
  simp only [submitReview, if_neg h1, if_neg ha]
  refine ⟨_, rfl, ?_, ?_, rfl⟩ <;>
  · dsimp only
    split
    · split <;> rfl
    · rfl

/-- Witness for C10: the form posts `lyrics_mode=custom`, yet the
approved record carries edited properties with an empty lyrics mode. -/
theorem submitReview_approve_rebuild_witness :
    ∃ wf', submitReview (some awaitingState) fullReviewForm =
        { httpStatus := 302, record := some wf' } ∧
      wf'.editedProperties = some
        { style := fullReviewForm ("style"), vocalType := fullReviewForm ("vocal_type"),
          lyricsMode := "",
          weirdness := goParseFloat (fullReviewForm ("weirdness")),
          styleInfluence := fullReviewForm ("style_influence") } ∧
      wf'.editedProperties.map SunoProperties.lyricsMode = some "" ∧
      wf'.status = "approved" :=
  submitReview_approve_rebuild awaitingState fullReviewForm (by decide) (by decide)

/-- C3: for a record with edited properties (as every record approved
through the review form has), the MGS request is a deterministic
function of the edited fields: prompt from `edited_lyrics` with
fallback to `lyrics_with_brackets`, tags from `style` and a non-empty
`vocal_type`, title from the 50-character brief truncation. -/
theorem buildSunoRequest_deterministic (s : WorkflowState) (props : SunoProperties)
    (h : s.editedProperties = some props) :
    ∃ r, buildSunoRequest s = some r ∧
      r.prompt = (if s.editedLyrics = "" then s.lyricsWithBrackets else s.editedLyrics) ∧
      r.tags = props.style ++ (if props.vocalType = "" then "" else ", " ++ props.vocalType) ∧
      r.title = truncateString s.taskDescription 50 ∧
      (s.taskDescription.length ≤ 50 → r.title = s.taskDescription) ∧
      (50 < s.taskDescription.length →
        r.title.data = s.taskDescription.data.take 50 ++ ('.' :: '.' :: '.' :: []) ∧
        r.title.length = 53) := by
  have hb : buildSunoRequest s = some
      { prompt := if s.editedLyrics = "" then s.lyricsWithBrackets else s.editedLyrics,
        tags := props.style ++ (if props.vocalType ≠ "" then ", " ++ props.vocalType else ""),
        negativeTags := "", title := truncateString s.taskDescription 50,
        makeInstrumental := false, model := "", waitAudio := false } := by
    unfold buildSunoRequest effectiveProps
    rw [h]
    rfl
  refine ⟨_, hb, rfl, ?_, rfl, fun hle => truncateString_of_le hle,
    fun hlt => ⟨truncateString_data_of_lt hlt, by rw [truncateString_length_of_lt hlt]⟩⟩
  by_cases hv : props.vocalType = "" <;> simp [hv]

/-- Witness for C3 on a concrete approved record. -/
theorem buildSunoRequest_deterministic_witness :
    ∃ r, buildSunoRequest approvedState = some r ∧
      r.prompt = (if approvedState.editedLyrics = "" then approvedState.lyricsWithBrackets
        else approvedState.editedLyrics) ∧
      r.tags = genProps.style ++ (if genProps.vocalType = "" then ""
        else ", " ++ genProps.vocalType) ∧
      r.title = truncateString approvedState.taskDescription 50 ∧
      (approvedState.taskDescription.length ≤ 50 → r.title = approvedState.taskDescription) ∧
      (50 < approvedState.taskDescription.length →
        r.title.data = approvedState.taskDescription.data.take 50 ++ ('.' :: '.' :: '.' :: []) ∧
        r.title.length = 53) :=
  buildSunoRequest_deterministic approvedState genProps (by decide)

/-- Counterexample for C4: two approved premium records that differ
only in persona/inspo and in the uploaded audio reference produce the
same MGS request, so the request includes neither. -/
theorem buildSunoRequest_persona_counterexample :
    premiumBase.personaInspo ≠ premiumAlt.personaInspo ∧
    premiumBase.audioFilePath ≠ premiumAlt.audioFilePath ∧
    premiumBase.audioFileName ≠ premiumAlt.audioFileName ∧
    (premiumBase.personaInspo.map PersonaInspo.persona) = some "Persona A" ∧
    buildSunoRequest premiumBase = buildSunoRequest premiumAlt := by decide

/-- C4 (amended): the MGS request built on approval carries only
prompt, tags, title and the zero-valued wire fields; it is independent
of `persona_inspo` and of the uploaded audio reference, which are not
forwarded. -/
theorem buildSunoRequest_ignores_persona_audio (s : WorkflowState)
    (pi : Option PersonaInspo) (path name : String) :
    buildSunoRequest
        { s with personaInspo := pi, audioFilePath := path, audioFileName := name } =
      buildSunoRequest s := rfl

/-- Counterexample for C5: an MGS submission failing with HTTP 503
marks the record failed with the documented message prefix, but sends
no notification at all (the claimed single Notifier call never
happens). -/
theorem submitToSuno_failure_counterexample :
    (submitToSuno (.error ("API error (status 503): Service Unavailable")) noCancel
          fetchUnused approvedState).map
        (fun r => (r.1.status, r.1.errorMsg, r.2)) =
      some ("failed", "suno submission failed: API error (status 503): Service Unavailable",
        []) := by decide

/-- C5 (amended): every failing MGS submission (transport error,
non-2xx, or empty job list) moves the record to `failed` with
`error_msg` starting with `"suno submission failed: "`; the engine
sends no notification on this path (failures are only logged). -/
theorem submitToSuno_failure (submitRes : Except String (List AudioInfo))
    (cancelled : Nat → Bool) (fetch : Nat → Except String (List AudioInfo))
    (s : WorkflowState) (hp : (effectiveProps s).isSome = true)
    (hfail : (∃ e, submitRes = .error e) ∨ submitRes = .ok []) :
    ∃ st, submitToSuno submitRes cancelled fetch s = some (st, []) ∧
      st.status = "failed" ∧
      ∃ tail, st.errorMsg.data = ("suno submission failed: ").data ++ tail := by
  obtain ⟨props, hprops⟩ := Option.isSome_iff_exists.mp hp
  have hbuild : ∃ r, buildSunoRequest s = some r := by
    unfold buildSunoRequest
    rw [hprops]
    exact ⟨_, rfl⟩
  obtain ⟨r, hr⟩ := hbuild
  have hmsg : ∀ e : String,
      ("suno submission" ++ " failed: " ++ e).data = ("suno submission failed: ").data ++ e.data := by
    intro e
    rw [data_append, data_append]
    have : ("suno submission").data ++ (" failed: ").data = ("suno submission failed: ").data := by decide
    rw [List.append_assoc, ← this, List.append_assoc]
  rcases hfail with ⟨e, he⟩ | he
  · refine ⟨handleError ("suno submission") e s, ?_, rfl, e.data, ?_⟩
    · unfold submitToSuno
      rw [hr, he]
    · exact hmsg e
  · refine ⟨handleError ("suno submission") ("no results returned from Suno") s, ?_, rfl,
      ("no results returned from Suno").data, ?_⟩
    · unfold submitToSuno
      rw [hr, he]
    · exact hmsg _

/-- Witness for C5 (amended) at a concrete 503 failure. -/
theorem submitToSuno_failure_witness :
    ∃ st, submitToSuno (.error ("API error (status 503): Service Unavailable")) noCancel
        fetchUnused approvedState = some (st, []) ∧
      st.status = "failed" ∧
      ∃ tail, st.errorMsg.data = ("suno submission failed: ").data ++ tail :=
  submitToSuno_failure (.error ("API error (status 503): Service Unavailable")) noCancel
    fetchUnused approvedState (by decide)
    (Or.inl ⟨("API error (status 503): Service Unavailable"), rfl⟩)

/-- Every run of the pre-review stage either fails or enters review
from a state with generated properties (and, on the premium path,
persona/inspo). -/
theorem runWorkflowSteps_shape (o : LLMOutcomes) (s0 : WorkflowState) :
    (runWorkflowSteps o s0).status = "failed" ∨
    (∃ s', runWorkflowSteps o s0 = enterReview s' ∧ s'.sunoProperties.isSome = true ∧
      (s0.isPremium = true → s'.personaInspo.isSome = true)) := by
  unfold runWorkflowSteps
  rcases o.lyricsResp with e | lyr
  · exact Or.inl rfl
  · dsimp only
    rcases determineSunoProperties o.propsResp with e | props
    · exact Or.inl rfl
    · dsimp only
      rcases o.bracketsResp with e | lwb
      · exact Or.inl rfl
      · dsimp only
        split
        · rcases generatePersonaInspo o.personaResp with e | pi
          · exact Or.inl rfl
          · exact Or.inr ⟨_, rfl, rfl, fun _ => rfl⟩
        · next hnp => exact Or.inr ⟨_, rfl, rfl, fun hs0 => absurd hs0 hnp⟩

/-- C1 (amended): when the pre-review stage of a fresh record ends in
`awaiting_review`, at that instant `edited_lyrics` equals
`lyrics_with_brackets`, `edited_properties` equals the populated
`properties`, a premium record has `persona_inspo` populated, and
`edited_lyrics` is non-empty whenever the bracket step produced
non-empty lyrics (the code does not enforce non-emptiness of the LLM
output itself). -/
theorem runWorkflowSteps_review_invariant (o : LLMOutcomes) (id task : String)
    (prem : Bool) (audioPath audioName : String) (final : WorkflowState)
    (hfin : final = runWorkflowSteps o (newWorkflowState id task prem audioPath audioName))
    (h : final.status = "awaiting_review") :
    final.editedLyrics = final.lyricsWithBrackets ∧
    final.editedProperties = final.sunoProperties ∧
    final.sunoProperties.isSome = true ∧
    (prem = true → final.personaInspo.isSome = true) ∧
    (final.lyricsWithBrackets ≠ "" → final.editedLyrics ≠ "") := by
  subst hfin
  rcases runWorkflowSteps_shape o (newWorkflowState id task prem audioPath audioName) with
    hf | ⟨s', hs', hsp, hpi⟩
  · rw [hf] at h
    exact absurd h (by decide)
  · rw [hs']
    exact ⟨rfl, rfl, hsp, fun hp => hpi hp, fun hne => hne⟩

/-- Witness for C1 (amended) on a fully successful basic run. -/
theorem runWorkflowSteps_review_invariant_witness :
    (runWorkflowSteps happyOracle freshBasicState).editedLyrics =
      (runWorkflowSteps happyOracle freshBasicState).lyricsWithBrackets ∧
    (runWorkflowSteps happyOracle freshBasicState).editedProperties =
      (runWorkflowSteps happyOracle freshBasicState).sunoProperties ∧
    (runWorkflowSteps happyOracle freshBasicState).sunoProperties.isSome = true ∧
    (false = true → (runWorkflowSteps happyOracle freshBasicState).personaInspo.isSome = true) ∧
    ((runWorkflowSteps happyOracle freshBasicState).lyricsWithBrackets ≠ "" →
      (runWorkflowSteps happyOracle freshBasicState).editedLyrics ≠ "") :=
  runWorkflowSteps_review_invariant happyOracle "wf-5" "a rainy-evening lofi track" false "" ""
    (runWorkflowSteps happyOracle freshBasicState) rfl (by decide)

/-- Counterexample for C1 as stated: a run whose bracket-instruction
step returns the empty string reaches `awaiting_review` with an empty
`edited_lyrics`, so "edited_lyrics ... non-empty" does not hold. -/
theorem runWorkflowSteps_empty_lyrics_counterexample :
    (runWorkflowSteps emptyBracketsOracle freshBasicState).status = "awaiting_review" ∧
    (runWorkflowSteps emptyBracketsOracle freshBasicState).editedLyrics = "" := by decide

theorem waitLoop_count_le (cancelled : Nat → Bool) (fetch : Nat → Except String (List AudioInfo))
    (id : String) :
    ∀ (mr i : Nat), (waitForCompletionLoop cancelled fetch id i mr).2 ≤ mr := by
  intro mr
  induction mr with
  | zero => intro i; exact Nat.le_refl 0
  | succ n ih =>
    intro i
    unfold waitForCompletionLoop
    by_cases hc : cancelled i = true
    · simp [hc]
    · simp only [Bool.not_eq_true] at hc
      rcases hf : fetch i with e | l
      · simp [hc, hf]
      · rcases l with _ | ⟨a, t⟩
        · simp [hc, hf]
        · by_cases hs : a.status = "streaming" ∨ a.status = "complete"
          · simp [hc, hf, hs]
          · simp only [hc, hf, hs]
            simp only [Bool.false_eq_true, if_false]
            exact Nat.succ_le_succ (ih (i + 1))

theorem waitLoop_ok_status (cancelled : Nat → Bool) (fetch : Nat → Except String (List AudioInfo))
    (id : String) :
    ∀ (mr i : Nat) (a : AudioInfo),
      (waitForCompletionLoop cancelled fetch id i mr).1 = .ok a →
      a.status = "streaming" ∨ a.status = "complete" := by
  intro mr
  induction mr with
  | zero => intro i a h; exact absurd h (by simp [waitForCompletionLoop])
  | succ n ih =>
    intro i a h
    unfold waitForCompletionLoop at h
    by_cases hc : cancelled i = true
    · simp [hc] at h
    · simp only [Bool.not_eq_true] at hc
      rcases hf : fetch i with e | l
      · simp [hc, hf] at h
      · rcases l with _ | ⟨b, t⟩
        · simp [hc, hf] at h
        · by_cases hs : b.status = "streaming" ∨ b.status = "complete"
          · simp only [hc, hf, hs, Bool.false_eq_true, if_false, if_true] at h
            cases h
            exact hs
          · simp only [hc, hf, hs, Bool.false_eq_true, if_false] at h
            exact ih (i + 1) a h

theorem waitLoop_timeout (cancelled : Nat → Bool) (fetch : Nat → Except String (List AudioInfo))
    (id : String) :
    ∀ (mr i : Nat),
      (∀ j, j < mr → cancelled (i + j) = false ∧
        ∃ a t, fetch (i + j) = .ok (a :: t) ∧
          a.status ≠ "streaming" ∧ a.status ≠ "complete") →
      waitForCompletionLoop cancelled fetch id i mr = (.error .maxRetriesExceeded, mr) := by
  intro mr
  induction mr with
  | zero => intro i _; rfl
  | succ n ih =>
    intro i h
    obtain ⟨hc, a, t, hf, hs1, hs2⟩ := h 0 (Nat.succ_pos n)
    rw [Nat.add_zero] at hc hf
    have hs : ¬(a.status = "streaming" ∨ a.status = "complete") := by
      rintro (h1 | h2)
      · exact hs1 h1
      · exact hs2 h2
    unfold waitForCompletionLoop
    rw [hc, hf]
    simp only [Bool.false_eq_true, if_false, hs]
    rw [ih (i + 1) (fun j hj => by
      have := h (j + 1) (Nat.succ_lt_succ hj)
      rwa [show i + (j + 1) = i + 1 + j by omega] at this)]

theorem waitLoop_cancelled_start (cancelled : Nat → Bool)
    (fetch : Nat → Except String (List AudioInfo)) (id : String) (mr i : Nat)
    (hmr : 0 < mr) (hc : cancelled i = true) :
    waitForCompletionLoop cancelled fetch id i mr = (.error .ctxCancelled, 0) := by
  rcases mr with _ | n
  · exact absurd hmr (by omega)
  · unfold waitForCompletionLoop
    rw [hc]
    rfl

theorem waitLoop_first_success (cancelled : Nat → Bool)
    (fetch : Nat → Except String (List AudioInfo)) (id : String) (mr i : Nat)
    (a : AudioInfo) (t : List AudioInfo) (hmr : 0 < mr) (hc : cancelled i = false)
    (hf : fetch i = .ok (a :: t)) (hs : a.status = "streaming" ∨ a.status = "complete") :
    waitForCompletionLoop cancelled fetch id i mr = (.ok a, 1) := by
  rcases mr with _ | n
  · exact absurd hmr (by omega)
  · unfold waitForCompletionLoop
    rw [hc, hf]
    simp [hs]

/-- C8: `wait_for_completion` performs at most `max_polls` reads,
returns the job as soon as its status is `streaming` or `complete`,
returns the distinct `maxRetriesExceeded` error after `max_polls`
unsuccessful reads, returns the context error when cancelled, and
the engine invokes it with a 5-second interval and 60 polls. -/
theorem waitForCompletion_spec :
    (∀ (cancelled : Nat → Bool) (fetch : Nat → Except String (List AudioInfo))
        (id : String) (interval mr : Nat),
      (waitForCompletion cancelled fetch id interval mr).2 ≤ mr) ∧
    (∀ (cancelled : Nat → Bool) (fetch : Nat → Except String (List AudioInfo))
        (id : String) (interval mr : Nat) (a : AudioInfo),
      (waitForCompletion cancelled fetch id interval mr).1 = .ok a →
      a.status = "streaming" ∨ a.status = "complete") ∧
    (∀ (cancelled : Nat → Bool) (fetch : Nat → Except String (List AudioInfo))
        (id : String) (interval mr : Nat),
      (∀ j, j < mr → cancelled j = false ∧
        ∃ a t, fetch j = .ok (a :: t) ∧ a.status ≠ "streaming" ∧ a.status ≠ "complete") →
      waitForCompletion cancelled fetch id interval mr = (.error .maxRetriesExceeded, mr)) ∧
    (∀ (cancelled : Nat → Bool) (fetch : Nat → Except String (List AudioInfo))
        (id : String) (interval mr : Nat), 0 < mr → cancelled 0 = true →
      waitForCompletion cancelled fetch id interval mr = (.error .ctxCancelled, 0)) ∧
    (∀ (cancelled : Nat → Bool) (fetch : Nat → Except String (List AudioInfo))
        (id : String) (interval mr : Nat) (a : AudioInfo) (t : List AudioInfo),
      0 < mr → cancelled 0 = false → fetch 0 = .ok (a :: t) →
      (a.status = "streaming" ∨ a.status = "complete") →
      waitForCompletion cancelled fetch id interval mr = (.ok a, 1)) ∧
    sunoPollIntervalSeconds = 5 ∧ sunoPollMaxRetries = 60 := by
  refine ⟨fun c f id int mr => waitLoop_count_le c f id mr 0,
    fun c f id int mr a h => waitLoop_ok_status c f id mr 0 a h,
    fun c f id int mr h => waitLoop_timeout c f id mr 0 (fun j hj => by simpa using h j hj),
    fun c f id int mr hmr hc => waitLoop_cancelled_start c f id mr 0 hmr hc,
    fun c f id int mr a t hmr hc hf hs => waitLoop_first_success c f id mr 0 a t hmr hc hf hs,
    rfl, rfl⟩

/-- Witness for C8: a never-completing job exhausts exactly 2 polls of
a 2-poll wait and yields the timeout error. -/
theorem waitForCompletion_spec_witness :
    waitForCompletion noCancel (fun _ => .ok [audioPending]) ("job-9") 5 2 =
      (.error .maxRetriesExceeded, 2) :=
  waitForCompletion_spec.2.2.1 noCancel (fun _ => .ok [audioPending]) ("job-9") 5 2
    (fun j hj => ⟨rfl, audioPending, [], rfl, by decide, by decide⟩)

/-- C9: a record the polling task completes records as `mgs_result`
exactly the job status reported by the MGS when polling stopped, and
that status is `streaming` or `complete`; in particular a record can
be `completed` while the MGS still reports the job as `streaming`. -/
theorem pollSunoCompletion_completed :
    (∀ (cancelled : Nat → Bool) (fetch : Nat → Except String (List AudioInfo))
        (s : WorkflowState) (audioID : String),
      (pollSunoCompletion cancelled fetch s audioID).1.status = "completed" →
      ∃ a, (waitForCompletion cancelled fetch audioID sunoPollIntervalSeconds
          sunoPollMaxRetries).1 = .ok a ∧
        (pollSunoCompletion cancelled fetch s audioID).1.sunoResult = a.status ∧
        (a.status = "streaming" ∨ a.status = "complete")) ∧
    ((pollSunoCompletion noCancel streamingFetch pollingState ("job-9")).1.status =
        "completed" ∧
      (pollSunoCompletion noCancel streamingFetch pollingState ("job-9")).1.sunoResult =
        "streaming") := by
  constructor
  · intro c f s id h
    unfold pollSunoCompletion at h ⊢
    rcases hw : (waitForCompletion c f id sunoPollIntervalSeconds sunoPollMaxRetries).1 with
      e | a
    · rw [hw] at h
      have h' : ("failed" : String) = "completed" := h
      exact absurd h' (by decide)
    · exact ⟨a, rfl, rfl, waitLoop_ok_status c f id sunoPollMaxRetries 0 a hw⟩
  · exact ⟨by decide, by decide⟩

/-- Witness for the universal part of C9 at a job observed `streaming`. -/
theorem pollSunoCompletion_completed_witness :
    ∃ a, (waitForCompletion noCancel streamingFetch ("job-9") sunoPollIntervalSeconds
        sunoPollMaxRetries).1 = .ok a ∧
      (pollSunoCompletion noCancel streamingFetch pollingState ("job-9")).1.sunoResult =
        a.status ∧
      (a.status = "streaming" ∨ a.status = "complete") :=
  pollSunoCompletion_completed.1 noCancel streamingFetch pollingState ("job-9") (by decide)

theorem extractScan_cons (c : Char) (rest : List Char) (i : Nat) (start : Option Nat)
    (depth : Int) :
    extractScan (c :: rest) i start depth =
      if c = lbrace then extractScan rest (i + 1) (some (start.getD i)) (depth + 1)
      else if c = rbrace then
        match start with
        | some s =>
          if depth - 1 = 0 then some (s, i + 1) else extractScan rest (i + 1) start (depth - 1)
        | none => extractScan rest (i + 1) none (depth - 1)
      else extractScan rest (i + 1) start depth := rfl

theorem blockScan_cons (c : Char) (rest : List Char) (depth : Int) :
    blockScan (c :: rest) depth =
      (let depth' := if c = lbrace then depth + 1 else if c = rbrace then depth - 1 else depth
       if depth' = 0 then rest.isEmpty else blockScan rest depth') := rfl

theorem extractScan_append_of_nobrace (pre : List Char) :
    ∀ (s : List Char) (i : Nat) (start : Option Nat) (depth : Int),
      (∀ c ∈ pre, c ≠ lbrace ∧ c ≠ rbrace) →
      extractScan (pre ++ s) i start depth = extractScan s (i + pre.length) start depth := by
  induction pre with
  | nil => intro s i start depth _; simp
  | cons c pre ih =>
    intro s i start depth hno
    obtain ⟨h1, h2⟩ := hno c (List.mem_cons_self c pre)
    have hrest : ∀ d ∈ pre, d ≠ lbrace ∧ d ≠ rbrace :=
      fun d hd => hno d (List.mem_cons_of_mem c hd)
    have harith : i + (c :: pre).length = i + 1 + pre.length := by
      rw [List.length_cons]
      omega
    rw [harith]
    show extractScan (c :: (pre ++ s)) i start depth = _
    rw [extractScan_cons, if_neg h1, if_neg h2]
    exact ih s (i + 1) start depth hrest

theorem extractScan_of_blockScan :
    ∀ (rest : List Char) (depth : Int), 1 ≤ depth → blockScan rest depth = true →
      ∀ (i st : Nat), extractScan rest i (some st) depth = some (st, i + rest.length) := by
  intro rest
  induction rest with
  | nil => intro depth h1 hb; exact absurd hb (by simp [blockScan])
  | cons c r ih =>
    intro depth h1 hb i st
    rw [blockScan_cons] at hb
    rw [extractScan_cons]
    by_cases hcl : c = lbrace
    · have hne : ¬(depth + 1 = 0) := by omega
      rw [if_pos hcl] at hb ⊢
      simp only [hne, if_false] at hb
      have hgetd : (some st).getD i = st := rfl
      rw [hgetd, ih (depth + 1) (by omega) hb (i + 1) st, List.length_cons]
      have : i + 1 + r.length = i + (r.length + 1) := by omega
      rw [this]
    · by_cases hcr : c = rbrace
      · rw [if_neg hcl, if_pos hcr] at hb ⊢
        by_cases hz : depth - 1 = 0
        · simp only [hz, if_pos rfl] at hb
          have hr : r = [] := by simpa using hb
          subst hr
          simp [hz]
        · simp only [hz, if_false] at hb
          simp only [hz, if_false]
          rw [ih (depth - 1) (by omega) hb (i + 1) st, List.length_cons]
          have : i + 1 + r.length = i + (r.length + 1) := by omega
          rw [this]
      · rw [if_neg hcl, if_neg hcr] at hb ⊢
        have hz : ¬(depth = 0) := by omega
        simp only [hz, if_false] at hb
        rw [ih depth h1 hb (i + 1) st, List.length_cons]
        have : i + 1 + r.length = i + (r.length + 1) := by omega
        rw [this]

theorem extractJsonSpan_of_block (pre obj : List Char)
    (hpre : ∀ c ∈ pre, c ≠ lbrace ∧ c ≠ rbrace) (hobj : isBalancedBlock obj = true) :
    extractJsonSpan (pre ++ obj) = some (pre.length, pre.length + obj.length) := by
  rcases obj with _ | ⟨c, rest⟩
  · exact absurd hobj (by simp [isBalancedBlock])
  · have hc : c = lbrace ∧ blockScan rest 1 = true := by
      have h := hobj
      rw [isBalancedBlock] at h
      simpa using h
    rcases hc with ⟨rfl, hbs⟩
    unfold extractJsonSpan
    rw [extractScan_append_of_nobrace pre (lbrace :: rest) 0 none 0 hpre]
    rw [extractScan_cons, if_pos rfl]
    have hgetd : (none : Option Nat).getD (0 + pre.length) = 0 + pre.length := rfl
    rw [hgetd]
    have hone : (0 : Int) + 1 = 1 := by omega
    rw [hone]
    rw [extractScan_of_blockScan rest 1 (by omega) hbs (0 + pre.length + 1) (0 + pre.length)]
    rw [List.length_cons]
    have h1 : 0 + pre.length = pre.length := by omega
    rw [h1]
    have h2 : pre.length + 1 + rest.length = pre.length + (rest.length + 1) := by omega
    rw [h2]

/-- C6 (amended): the determine-properties step first attempts a
strict JSON parse of the full response, on failure extracts the first
balanced `{...}` substring by depth counting and parses that, and
fails iff both parses fail.  A well-formed JSON object parses
successfully when preceded by brace-free preamble text, provided the
braces of the object form a single balanced block spanning the whole
text (true in particular when its string literals contain no braces;
the depth counter is blind to string syntax). -/
theorem determineSunoProperties_lenient :
    (∀ r : String,
      (∃ p, determineSunoProperties (.ok r) = .ok p) ↔
        ((unmarshalSunoProperties r.data).isSome = true ∨
          (extractSunoProperties r.data).isSome = true)) ∧
    (∀ (pre obj : String) (p : SunoProperties),
      (∀ c ∈ pre.data, c ≠ lbrace ∧ c ≠ rbrace) →
      isBalancedBlock obj.data = true →
      unmarshalSunoProperties obj.data = some p →
      ∃ q, determineSunoProperties (.ok (pre ++ obj)) = .ok q) := by
  constructor
  · intro r
    unfold determineSunoProperties
    dsimp only
    rcases hu : unmarshalSunoProperties r.data with _ | p
    · rcases he : extractSunoProperties r.data with _ | p
      · constructor
        · rintro ⟨p, hp⟩
          exact Except.noConfusion hp
        · rintro (h | h) <;> exact Bool.noConfusion h
      · constructor
        · intro _
          exact Or.inr rfl
        · intro _
          exact ⟨p, rfl⟩
    · constructor
      · intro _
        exact Or.inl rfl
      · intro _
        exact ⟨p, rfl⟩
  · intro pre obj p hpre hblock hum
    rcases hu : unmarshalSunoProperties (pre ++ obj).data with _ | q
    · have hdata : (pre ++ obj).data = pre.data ++ obj.data := data_append pre obj
      have hspan : extractJsonSpan ((pre ++ obj).data) =
          some (pre.data.length, pre.data.length + obj.data.length) := by
        rw [hdata]
        exact extractJsonSpan_of_block pre.data obj.data hpre hblock
      have hext : extractSunoProperties ((pre ++ obj).data) = some p := by
        unfold extractSunoProperties
        rw [hspan, hdata]
        dsimp only
        have harith : pre.data.length + obj.data.length - pre.data.length = obj.data.length := by
          omega
        rw [harith, List.drop_left, List.take_length]
        exact hum
      refine ⟨p, ?_⟩
      unfold determineSunoProperties
      dsimp only
      rw [hu, hext]
    · refine ⟨q, ?_⟩
      unfold determineSunoProperties
      dsimp only
      rw [hu]

/-- Witness for C6 on scenario 3: preamble plus a clean JSON object. -/
theorem determineSunoProperties_lenient_witness :
    ∃ q, determineSunoProperties (.ok (scenario3Preamble ++ scenario3Object)) = .ok q :=
  determineSunoProperties_lenient.2 scenario3Preamble scenario3Object
    { style := "rock", vocalType := "male", lyricsMode := "custom",
      weirdness := mkRat 1 2, styleInfluence := "queen" }
    (by decide) (by decide) (by decide)

/-- Counterexample for the unconditional C6 sentence that a preamble
followed by a well-formed object parses: a well-formed object whose
string value is a closing brace defeats the depth counter, and the
step fails. -/
theorem determineSunoProperties_brace_counterexample :
    (unmarshalSunoProperties braceyObject.data).isSome = true ∧
    isBalancedBlock braceyObject.data = false ∧
    determineSunoProperties (.ok ("Sure! " ++ braceyObject)) =
      .error ("failed to parse suno properties: no valid JSON found in response") := by decide

end Workflower
